import Mathlib

/-!
Verification of the MeGPT orchestration/memory subsystem.

Shallow embedding of the repository's Python sources:
* `agent_graph.py` — the turn state machine (guard, tool loop, respond node);
* `database.py` — intent classification and adaptive context assembly;
* `tools/memory_tool.py` — fact retrieval, memory writes, cascading deletes;
* `tools/backup_tool.py` — backup creation with retention, and restore.

External services (language model, embedder, vector store, HTTP) are modelled
as oracle parameters or outcome values; everything the repository's own code
does with their results is translated faithfully.
-/

namespace MeGPT

/- ================================================================
   Messages and the agent graph (src/agent_graph.py)
   ================================================================ -/

/-- A LangChain message, as used by the agent graph.  An assistant
message carries its text content and the list of requested tool-call
names (`AIMessage.tool_calls`). -/
inductive Msg
  | human (content : String)
  | system (content : String)
  | ai (content : String) (tool_calls : List String)
  | tool (content : String)
deriving DecidableEq, Repr

/-- Models `hasattr(m, "tool_calls") and m.tool_calls`: only assistant messages
have the attribute, and the list must be non-empty. -/
def hasToolCalls : Msg → Bool
  | .ai _ tc => !tc.isEmpty
  | _ => false

/-- The bound `MAX_TOOL_CALLS = 3` in `should_continue` (agent_graph.py:194). -/
def MAX_TOOL_CALLS : Nat := 3

/-- The routes out of the `reason` node. -/
inductive Route
  | tools
  | respond
deriving DecidableEq, Repr

/-- Source `should_continue` (agent_graph.py:190-211): empty message list or a
counter at the bound forces `respond`; otherwise route on whether the
last message carries tool calls. -/
def should_continue (messages : List Msg) (tool_call_count : Nat) : Route :=
  if messages.isEmpty then .respond
  else if MAX_TOOL_CALLS ≤ tool_call_count then .respond
  else
    match messages.getLast? with
    | some last_message => if hasToolCalls last_message then .tools else .respond
    | none => .respond

/-- The slice of `AgentState` (agent_graph.py:45-54) that the tool loop
and the respond node read and write. -/
structure AgentState where
  messages : List Msg
  tool_call_count : Nat
  user_input : String
  final_response : String
deriving DecidableEq, Repr

/-- Source `tools_wrapper_node` (agent_graph.py:213-229): append the tool-result
messages produced by the `ToolNode` (here an oracle `toolExec`) and
increment the counter by exactly one for the whole iteration. -/
def tools_wrapper_node (toolExec : List Msg → List Msg) (s : AgentState) : AgentState :=
  { s with
    messages := s.messages ++ toolExec s.messages
    tool_call_count := s.tool_call_count + 1 }

/-- Source `reason_node` (agent_graph.py:132-188): invoke the tool-bound model
(an oracle `llm`) and append its assistant message to the sequence. -/
def reason_node (llm : List Msg → Msg) (s : AgentState) : AgentState :=
  { s with messages := s.messages ++ [llm s.messages] }

/-- The `reason → {tools → reason}*` loop of the compiled graph
(agent_graph.py:336-340), with fuel for termination.  Stops when the
guard routes to `respond`. -/
def reactLoop (llm : List Msg → Msg) (toolExec : List Msg → List Msg) :
    Nat → AgentState → AgentState
  | 0, s => s
  | fuel + 1, s =>
    let s1 := reason_node llm s
    match should_continue s1.messages s1.tool_call_count with
    | .tools => reactLoop llm toolExec fuel (tools_wrapper_node toolExec s1)
    | .respond => s1

/- ================================================================
   The respond node (src/agent_graph.py:231-304)
   ================================================================ -/

/-- Models `isinstance(last_message, AIMessage) and last_message.content`. -/
def isAIWithContent : Msg → Bool
  | .ai c _ => !c.isEmpty
  | _ => false

/-- The text content of an assistant message. -/
def aiContent : Msg → String
  | .ai c _ => c
  | _ => ""

/-- The contents of every `ToolMessage` in the sequence
(agent_graph.py:249-252). -/
def toolContents (msgs : List Msg) : List String :=
  msgs.filterMap fun m =>
    match m with
    | .tool c => some c
    | _ => none

/-- Context hygiene (agent_graph.py:262-267): keep human messages and
assistant messages with non-empty text; drop system and tool messages. -/
def clean_history (msgs : List Msg) : List Msg :=
  msgs.filter fun m =>
    match m with
    | .human _ => true
    | .ai c _ => !c.isEmpty
    | _ => false

/-- The synthesis prompt built at agent_graph.py:270-283. -/
def synthesisPrompt (user_input all_results : String) : String :=
  "You are MeGPT. Answer the user based on the Search Results.\n\nCONTEXT:\nUser asked: \""
    ++ user_input
    ++ "\"\n\nSEARCH RESULTS:\n"
    ++ all_results
    ++ "\n\nINSTRUCTIONS:\n1. Synthesize a conversational answer using ONLY the search results.\n2. Use EXACT numbers, prices, and facts - do NOT make up data.\n3. Cite sources (SOURCE 1, SOURCE 2, etc.) when referencing information.\n4. If results don't contain the answer, admit it honestly.\n5. Be concise."

/-- The message list handed to the synthesis model call
(agent_graph.py:285-289). -/
def synthesisMessages (user_input : String) (msgs : List Msg) : List Msg :=
  Msg.system "You are a helpful AI assistant."
    :: clean_history msgs
    ++ [Msg.human (synthesisPrompt user_input
          (String.intercalate "\n\n---\n\n" (toolContents msgs)))]

/-- The fallback string returned at agent_graph.py:301-304. -/
def APOLOGY : String := "I couldn't find any information to help with that."

/-- Outcome of the respond node: the final response text, plus the
message list of the synthesis model call when one was issued (`none`
means no second model call was made). -/
structure RespondResult where
  final_response : String
  synthesis_call : Option (List Msg)
deriving DecidableEq, Repr

/-- Source `respond_node` (agent_graph.py:231-304).  `synthLLM` is the oracle
for the one synthesis model call; the result records whether and with
which messages it was invoked. -/
def respond_node (synthLLM : List Msg → String) (user_input : String)
    (messages : List Msg) : RespondResult :=
  match messages.getLast? with
  | none => ⟨APOLOGY, none⟩
  | some last_message =>
    if isAIWithContent last_message then
      ⟨aiContent last_message, none⟩
    else
      let tool_results := toolContents messages
      if tool_results.isEmpty then ⟨APOLOGY, none⟩
      else
        let call := synthesisMessages user_input messages
        ⟨synthLLM call, some call⟩

/- ================================================================
   Facts retrieval (src/tools/memory_tool.py:177-234)
   ================================================================ -/

/-- One scored hit from the similarity search; `score` is nullable and
`memory` is `hit.payload.get("memory", "")`.  Scores are modelled as
rationals. -/
structure MemHit where
  score : Option ℚ
  memory : String
deriving DecidableEq, Repr

/-- How the retrieval attempt went before the repository's own filtering
logic runs: no client, embedding failed after its bounded retries, the
search raised, or the search returned a hit list. -/
inductive SearchOutcome
  | clientUnavailable
  | embeddingFailed
  | searchRaised
  | ok (hits : List MemHit)
deriving DecidableEq, Repr

/-- Models `hit.score and hit.score > 0.5` (memory_tool.py:223): a null or zero
score is falsy; otherwise compare against the threshold. -/
def passesThreshold (h : MemHit) : Bool :=
  match h.score with
  | none => false
  | some s => decide (s ≠ 0) && decide ((1 : ℚ) / 2 < s)

/-- The hits kept by the threshold filter (memory_tool.py:221-224). -/
def keptHits (hits : List MemHit) : List MemHit :=
  hits.filter passesThreshold

/-- Source `retrieve_context` (memory_tool.py:177-234): every failure mode
degrades to the empty string; surviving hits are formatted as a
bulleted list under a fixed header. -/
def retrieve_context : SearchOutcome → String
  | .clientUnavailable => ""
  | .embeddingFailed => ""
  | .searchRaised => ""
  | .ok hits =>
    if hits.isEmpty then ""
    else
      let memories := (keptHits hits).map (fun h => "- " ++ h.memory)
      if memories.isEmpty then ""
      else "Here is what you remember about this user:\n" ++ String.intercalate "\n" memories

/- ================================================================
   Intent classification and adaptive context (src/database.py:259-366)
   ================================================================ -/

/-- Result of `classify_query_intent`. -/
structure IntentResult where
  intent : String
  needs_history : Bool
deriving DecidableEq, Repr

/-- The classifier call either failed (HTTP error, timeout, or JSON
parse failure — all caught by the same handler at database.py:304-306)
or produced a parsed `{intent, needs_history}` object. -/
inductive ClassifierOutcome
  | failure
  | parsed (intent : String) (needs_history : Bool)
deriving DecidableEq, Repr

/-- Source `classify_query_intent` (database.py:259-306): any call or parse
failure yields the defensive default. -/
def classify_query_intent : ClassifierOutcome → IntentResult
  | .failure => ⟨"general", true⟩
  | .parsed i nh => ⟨i, nh⟩

/-- The context bundle returned by `get_adaptive_context`
(database.py:360-366). -/
structure ContextBundle where
  facts : String
  summary : String
  recent : String
  intent : String
  needs_history : Bool
deriving DecidableEq, Repr

/-- Source `get_adaptive_context` (database.py:309-366).  `search` feeds the
always-performed facts retrieval; `summaryDb` is `get_summary(chat_id)`
and `recentDb n` is `get_recent_messages_text(chat_id, limit=n)`, both
only consulted when `chat_id` is non-null, exactly as in the source's
`if chat_id else ""` guards. -/
def get_adaptive_context (outcome : ClassifierOutcome) (search : SearchOutcome)
    (summaryDb : String) (recentDb : Nat → String) (chat_id : Option String) :
    ContextBundle :=
  let ir := classify_query_intent outcome
  let hasChat := chat_id.isSome
  let facts := retrieve_context search
  let sr :=
    if ir.intent = "overview" then
      (if hasChat then summaryDb else "", if hasChat then recentDb 2 else "")
    else if ir.intent = "followup" then
      ("", if hasChat then recentDb 5 else "")
    else if ir.intent = "factual" then
      (if ir.needs_history && hasChat then summaryDb else "", "")
    else if ir.intent = "new_topic" then
      ("", "")
    else
      (if hasChat then summaryDb else "", if hasChat then recentDb 3 else "")
  ⟨facts, sr.1, sr.2, ir.intent, ir.needs_history⟩

/- ================================================================
   Memory writes (src/tools/memory_tool.py:57-99, 237-297)
   ================================================================ -/

/-- The fact-extraction model call either raised (caught at
memory_tool.py:97-99) or returned a stripped content string. -/
inductive ExtractOutcome
  | failure
  | content (fact : String)
deriving DecidableEq, Repr

/-- Python's `str.upper()`, written over the character list so that it
is kernel-computable. -/
def pyUpper (s : String) : String :=
  String.mk (s.toList.map Char.toUpper)

/-- Python's `str.startswith(t)`, written over the character lists so
that it is kernel-computable. -/
def pyStartsWith (s t : String) : Bool :=
  t.toList.isPrefixOf s.toList

/-- Source `_extract_facts` (memory_tool.py:57-99): return the fact unless it
is empty or the literal no-fact sentinel `NONE` (case-insensitive). -/
def extract_facts : ExtractOutcome → String
  | .failure => ""
  | .content fact =>
    if fact ≠ "" ∧ pyUpper fact ≠ "NONE" then fact else ""

/-- The transcript fallback text built at memory_tool.py:269. -/
def transcriptFallback (user_input ai_response : String) : String :=
  "User said: " ++ user_input ++ "\nAssistant responded: " ++ ai_response

/-- What `save_interaction` did: bailed out for lack of a client,
aborted silently after an embedding failure, or stored one record with
the given text and `type` tag. -/
inductive SaveOutcome
  | clientUnavailable
  | embeddingFailed
  | stored (text : String) (kind : String)
deriving DecidableEq, Repr

/-- Source `save_interaction` (memory_tool.py:237-297): extract a fact, fall
back to the raw transcript pair when extraction yields nothing, abort
silently when the embedding call fails, and otherwise store one record
tagged `extracted_fact` or `transcript`. -/
def save_interaction (clientOk : Bool) (extract : ExtractOutcome) (embedOk : Bool)
    (user_input ai_response : String) : SaveOutcome :=
  if !clientOk then .clientUnavailable
  else
    let fact_text := extract_facts extract
    let is_extracted : Bool :=
      decide (fact_text ≠ "") && !(pyStartsWith fact_text "User said:")
    let fact_text :=
      if fact_text = "" then transcriptFallback user_input ai_response else fact_text
    if !embedOk then .embeddingFailed
    else .stored fact_text (if is_extracted then "extracted_fact" else "transcript")

/- ================================================================
   Cascading memory deletion (src/tools/memory_tool.py:409-453)
   ================================================================ -/

/-- A stored vector-memory point, as far as deletion is concerned. -/
structure MemPoint where
  pid : String
  user_id : String
  chat_id : Option String
deriving DecidableEq, Repr

/-- The page size of the single `client.scroll` call
(memory_tool.py:428-438). -/
def SCROLL_LIMIT : Nat := 100

/-- Whether a point matches the scroll filter of
`delete_memories_for_chat`. -/
def matchesChat (user_id chat_id : String) (p : MemPoint) : Bool :=
  p.user_id = user_id && p.chat_id = some chat_id

/-- Source `delete_memories_for_chat` (memory_tool.py:409-453): one scroll page
of at most 100 matching points is fetched, those ids are deleted, and
their number is returned.  `store` is the collection's point list in
scroll order. -/
def delete_memories_for_chat (clientOk : Bool) (store : List MemPoint)
    (chat_id : String) (user_id : String) : Nat × List MemPoint :=
  if !clientOk then (0, store)
  else
    let results := (store.filter (matchesChat user_id chat_id)).take SCROLL_LIMIT
    if results.isEmpty then (0, store)
    else
      let point_ids := results.map (·.pid)
      (point_ids.length, store.filter (fun p => decide (p.pid ∉ point_ids)))

/- ================================================================
   Backup creation and retention (src/tools/backup_tool.py:164-239)
   ================================================================ -/

/-- A file in the backups directory.  The source names snapshot files
`f"{backup_id}_megpt.db"` and `f"{backup_id}_vectors.json"`; the two
constructors model that naming scheme (injective in the id, and a db
name never collides with a vectors name). -/
inductive FileName
  | db (id : String)
  | vec (id : String)
deriving DecidableEq, Repr

/-- A manifest entry, restricted to the fields the retention and restore
logic reads: `id`, `db_file`, and the nullable `vectors_file`
(backup_tool.py:17-29). -/
structure BackupEntry where
  id : String
  db_file : FileName
  vectors_file : Option FileName
deriving DecidableEq, Repr

/-- The on-disk state the backup tool mutates: the set of snapshot files
in the backups directory and the persisted manifest list. -/
structure BackupSys where
  files : Finset FileName
  manifest : List BackupEntry
deriving DecidableEq

/-- The retention-eviction loop body (backup_tool.py:221-227).  For each
evicted entry the source first joins the backups dir with `db_file`,
then with `vectors_file`; when `vectors_file` is null that join raises
`TypeError` before either unlink runs, which this model reports as a
`false` flag together with the files unlinked so far. -/
def evictLoop : List BackupEntry → Finset FileName → Finset FileName × Bool
  | [], files => (files, true)
  | e :: rest, files =>
    match e.vectors_file with
    | none => (files, false)
    | some v => evictLoop rest ((files.erase e.db_file).erase v)

/-- Source `create_backup` (backup_tool.py:164-239) under a retention cap
`cap`: write the db snapshot, write the vectors snapshot when the export
succeeded, prepend the manifest entry, evict entries beyond the cap, and
save the manifest — unless the eviction loop raised, in which case the
outer handler returns `none` and the manifest file keeps its old
contents. -/
def create_backup (cap : Nat) (newId : String) (exportOk : Bool) (s : BackupSys) :
    Option BackupEntry × BackupSys :=
  let dbF := FileName.db newId
  let vecF := FileName.vec newId
  let files1 := insert dbF s.files
  let files2 := if exportOk then insert vecF files1 else files1
  let entry : BackupEntry := ⟨newId, dbF, if exportOk then some vecF else none⟩
  let manifest1 := entry :: s.manifest
  if manifest1.length > cap then
    let ev := evictLoop (manifest1.drop cap) files2
    if ev.2 then (some entry, ⟨ev.1, manifest1.take cap⟩)
    else (none, ⟨ev.1, s.manifest⟩)
  else (some entry, ⟨files2, manifest1⟩)

/-- The manifest entry a fully successful backup records. -/
def mkEntry (i : String) : BackupEntry :=
  ⟨i, FileName.db i, some (FileName.vec i)⟩

/-- Create one backup per id, in order, with every vector export
succeeding. -/
def createMany (cap : Nat) (ids : List String) (s : BackupSys) : BackupSys :=
  ids.foldl (fun st i => (create_backup cap i true st).2) s

/-- The empty backups directory and manifest. -/
def emptySys : BackupSys := ⟨∅, []⟩

/-- The files added to the backups directory by successful backups of
the given ids, in creation order. -/
def filesAfter (ids : List String) (f : Finset FileName) : Finset FileName :=
  ids.foldl (fun acc i => insert (FileName.vec i) (insert (FileName.db i) acc)) f

/- ================================================================
   Restore (src/tools/backup_tool.py:114-161, 248-290)
   ================================================================ -/

/-- The live stores `restore_backup` overwrites: the transcript database
file and the vector collection, each abstracted to its contents. -/
structure LiveStores where
  db : String
  vectors : String
deriving DecidableEq, Repr

/-- How `_import_qdrant_vectors` (backup_tool.py:114-161) went.  The
snapshot may hold no points (return `True`, collection untouched), the
reimport may complete (return `True`, collection rebuilt from the
snapshot), or an exception may be caught midway (return `False`, the
collection left in whatever state the drop/recreate/upsert sequence
reached). -/
inductive ImportOutcome
  | emptyData
  | success (restored : String)
  | failed (leftover : String)
deriving DecidableEq, Repr

/-- Source `_import_qdrant_vectors`: returns its success flag and the resulting
collection contents; it never raises (every exception is caught at
backup_tool.py:159-161). -/
def import_qdrant_vectors (o : ImportOutcome) (current : String) : Bool × String :=
  match o with
  | .emptyData => (true, current)
  | .success r => (true, r)
  | .failed p => (false, p)

/-- Source `restore_backup` (backup_tool.py:248-290).  `fs` gives the contents
of each file in the backups directory (`none` = missing).  The optional
auto safety backup (backup_tool.py:267-269) writes only to the backups
directory and never touches the live stores, so it does not appear in
`LiveStores`.  Note the source discards the boolean returned by
`_import_qdrant_vectors` and returns `True` regardless. -/
def restore_backup (manifest : List BackupEntry) (fs : FileName → Option String)
    (importOutcome : ImportOutcome) (backup_id : String) (s : LiveStores) :
    Bool × LiveStores :=
  match manifest.find? (fun b => b.id = backup_id) with
  | none => (false, s)
  | some b =>
    let s1 :=
      match fs b.db_file with
      | some content => { s with db := content }
      | none => s
    let s2 :=
      match b.vectors_file with
      | some vf =>
        match fs vf with
        | some _ => { s1 with vectors := (import_qdrant_vectors importOutcome s1.vectors).2 }
        | none => s1
      | none => s1
    (true, s2)

/- ================================================================
   Theorems
   ================================================================ -/

lemma should_continue_eq_tools_iff (msgs : List Msg) (n : Nat) :
    should_continue msgs n = Route.tools ↔
      (msgs ≠ [] ∧ n < MAX_TOOL_CALLS ∧
        ∃ m, msgs.getLast? = some m ∧ hasToolCalls m = true) := by
  cases msgs with
  | nil => simp [should_continue]
  | cons a l =>
    obtain ⟨m, hm⟩ : ∃ m, (a :: l).getLast? = some m :=
      Option.isSome_iff_exists.mp (by simp [List.getLast?_isSome])
    by_cases hn : MAX_TOOL_CALLS ≤ n
    · simp [should_continue, hn, hm]
      try omega
    · by_cases htc : hasToolCalls m
      · simp [should_continue, hn, hm, htc]
        try omega
      · simp [should_continue, hn, hm, htc]

lemma should_continue_eq_respond_of_le (msgs : List Msg) (n : Nat)
    (h : MAX_TOOL_CALLS ≤ n) : should_continue msgs n = Route.respond := by
  cases msgs with
  | nil => simp [should_continue]
  | cons a l => simp [should_continue, h]

lemma reactLoop_count_le (llm : List Msg → Msg) (toolExec : List Msg → List Msg) :
    ∀ (fuel : Nat) (s : AgentState), s.tool_call_count ≤ MAX_TOOL_CALLS →
      (reactLoop llm toolExec fuel s).tool_call_count ≤ MAX_TOOL_CALLS := by
  intro fuel
  induction fuel with
  | zero => intro s h; exact h
  | succ k ih =>
    intro s h
    rw [reactLoop]
    split
    · next hr =>
      have hlt : (reason_node llm s).tool_call_count < MAX_TOOL_CALLS :=
        ((should_continue_eq_tools_iff _ _).mp hr).2.1
      exact ih _ (by simpa [tools_wrapper_node] using hlt)
    · exact h

/-- C1: the guard transitions to `tools` exactly when the last message
carries tool calls and the counter is strictly below 3; at or above 3 it
forces `respond` regardless of the last message; the tools node
increments the counter by exactly one per loop iteration, whatever the
tool node returns; and along any run of the reason/tools loop starting
at counter 0 the counter never exceeds 3. -/
theorem tool_counter_never_exceeds_bound :
    (∀ (msgs : List Msg) (n : Nat),
        should_continue msgs n = Route.tools ↔
          (msgs ≠ [] ∧ n < MAX_TOOL_CALLS ∧
            ∃ m, msgs.getLast? = some m ∧ hasToolCalls m = true)) ∧
    (∀ (msgs : List Msg) (n : Nat), MAX_TOOL_CALLS ≤ n →
        should_continue msgs n = Route.respond) ∧
    (∀ (toolExec : List Msg → List Msg) (s : AgentState),
        (tools_wrapper_node toolExec s).tool_call_count = s.tool_call_count + 1) ∧
    (∀ (llm : List Msg → Msg) (toolExec : List Msg → List Msg) (fuel : Nat) (s : AgentState),
        s.tool_call_count = 0 →
        (reactLoop llm toolExec fuel s).tool_call_count ≤ MAX_TOOL_CALLS) :=
  ⟨should_continue_eq_tools_iff,
   should_continue_eq_respond_of_le,
   fun _ _ => rfl,
   fun llm toolExec fuel s h =>
     reactLoop_count_le llm toolExec fuel s (by omega)⟩

/-- Witness for C1 at concrete inputs: a guard at counter 3 refuses a
tool-requesting assistant message, and a run whose model always requests
a tool ends with a counter at most 3. -/
theorem tool_counter_never_exceeds_bound_witness :
    should_continue [Msg.ai "" ["web_search"]] 3 = Route.respond ∧
    (reactLoop (fun _ => Msg.ai "" ["web_search"]) (fun _ => [Msg.tool "result"]) 10
        ⟨[Msg.human "hello"], 0, "hello", ""⟩).tool_call_count ≤ MAX_TOOL_CALLS :=
  ⟨tool_counter_never_exceeds_bound.2.1 [Msg.ai "" ["web_search"]] 3 (by decide),
   tool_counter_never_exceeds_bound.2.2.2 _ _ 10 _ rfl⟩

/-- C5: the respond step uses the last assistant message's non-empty
text directly with no model call; otherwise, when tool results exist it
issues exactly one synthesis call whose history keeps only human
messages and assistant messages with non-empty text; otherwise it
returns the fixed apology, and the step is a total function (it cannot
raise). -/
theorem respond_node_case_analysis (synthLLM : List Msg → String) (user_input : String)
    (messages : List Msg) :
    (∀ last, messages.getLast? = some last → isAIWithContent last = true →
        respond_node synthLLM user_input messages = ⟨aiContent last, none⟩) ∧
    (∀ last, messages.getLast? = some last → isAIWithContent last = false →
        toolContents messages ≠ [] →
        respond_node synthLLM user_input messages =
          ⟨synthLLM (synthesisMessages user_input messages),
            some (synthesisMessages user_input messages)⟩) ∧
    (∀ m, m ∈ clean_history messages ↔
        (m ∈ messages ∧ ((∃ c, m = Msg.human c) ∨ ∃ c tc, m = Msg.ai c tc ∧ c ≠ ""))) ∧
    (messages = [] → respond_node synthLLM user_input messages = ⟨APOLOGY, none⟩) ∧
    (∀ last, messages.getLast? = some last → isAIWithContent last = false →
        toolContents messages = [] →
        respond_node synthLLM user_input messages = ⟨APOLOGY, none⟩) := by
  refine ⟨?_, ?_, ?_, ?_, ?_⟩
  · intro last hlast hai
    simp [respond_node, hlast, hai]
  · intro last hlast hai htr
    simp [respond_node, hlast, hai, htr]
  · intro m
    cases m <;>
      simp [clean_history, List.mem_filter, Bool.eq_false_iff, String.isEmpty_iff]
  · intro h
    subst h
    simp [respond_node]
  · intro last hlast hai htr
    simp [respond_node, hlast, hai, htr]

/-- Witness for C5 at concrete inputs: a final assistant text is used
directly, and a turn ending on an empty assistant message with a tool
result triggers the synthesis call over the hygiene-filtered history. -/
theorem respond_node_case_analysis_witness :
    respond_node (fun _ => "synth") "q"
        [Msg.human "q", Msg.ai "the answer" []] = ⟨"the answer", none⟩ ∧
    respond_node (fun _ => "synth") "q"
        [Msg.human "q", Msg.tool "data", Msg.ai "" []] =
      ⟨"synth", some (synthesisMessages "q"
        [Msg.human "q", Msg.tool "data", Msg.ai "" []])⟩ :=
  ⟨(respond_node_case_analysis (fun _ => "synth") "q" _).1
      (Msg.ai "the answer" []) (by decide) (by decide),
   (respond_node_case_analysis (fun _ => "synth") "q" _).2.1
      (Msg.ai "" []) (by decide) (by decide) (by decide)⟩

/-- C3: with a chat id present, tier selection follows the table —
facts are always the retrieval result; `overview` fetches the summary
and a 2-message recent window; `followup` skips the summary and fetches
a 5-message window; `factual` fetches the summary exactly when
`needs_history` holds and never a recent window; `new_topic` fetches
neither; any other intent (the general/default case) fetches the
summary and a 3-message window. -/
theorem adaptive_tier_selection (search : SearchOutcome) (summaryDb : String)
    (recentDb : Nat → String) (c : String) (nh : Bool) (i : String)
    (hi1 : i ≠ "overview") (hi2 : i ≠ "followup") (hi3 : i ≠ "factual")
    (hi4 : i ≠ "new_topic") :
    (∀ outcome chat_id,
        (get_adaptive_context outcome search summaryDb recentDb chat_id).facts =
          retrieve_context search) ∧
    get_adaptive_context (.parsed "overview" nh) search summaryDb recentDb (some c) =
      ⟨retrieve_context search, summaryDb, recentDb 2, "overview", nh⟩ ∧
    get_adaptive_context (.parsed "followup" nh) search summaryDb recentDb (some c) =
      ⟨retrieve_context search, "", recentDb 5, "followup", nh⟩ ∧
    get_adaptive_context (.parsed "factual" nh) search summaryDb recentDb (some c) =
      ⟨retrieve_context search, if nh then summaryDb else "", "", "factual", nh⟩ ∧
    get_adaptive_context (.parsed "new_topic" nh) search summaryDb recentDb (some c) =
      ⟨retrieve_context search, "", "", "new_topic", nh⟩ ∧
    get_adaptive_context (.parsed i nh) search summaryDb recentDb (some c) =
      ⟨retrieve_context search, summaryDb, recentDb 3, i, nh⟩ := by
  refine ⟨fun _ _ => rfl, ?_, ?_, ?_, ?_, ?_⟩
  · simp [get_adaptive_context, classify_query_intent]
  · simp [get_adaptive_context, classify_query_intent]
  · simp [get_adaptive_context, classify_query_intent]
  · simp [get_adaptive_context, classify_query_intent]
  · simp [get_adaptive_context, classify_query_intent, hi1, hi2, hi3, hi4]

/-- Witness for C3 at a concrete input: the default (`general`) row of
the table. -/
theorem adaptive_tier_selection_witness :
    get_adaptive_context (.parsed "general" true) SearchOutcome.searchRaised "S"
        (fun _ => "R") (some "chat1") = ⟨"", "S", "R", "general", true⟩ :=
  (adaptive_tier_selection SearchOutcome.searchRaised "S" (fun _ => "R") "chat1" true
      "general" (by decide) (by decide) (by decide) (by decide)).2.2.2.2.2

/-- C7 counterexample: with a chat id present and a non-empty stored
summary, a classifier failure yields intent `general`, which falls into
the default branch — the bundle's summary and recent tiers are the
fetched values, not the empty string the claim requires. -/
theorem classifier_failure_bundle_cex :
    (get_adaptive_context ClassifierOutcome.failure SearchOutcome.searchRaised
        "existing summary" (fun _ => "recent window") (some "chat1")) =
      ⟨"", "existing summary", "recent window", "general", true⟩ ∧
    "existing summary" ≠ "" := by
  decide

/-- C7 amended: a classifier failure still never blocks the turn — the
bundle's intent is `general`, `needs_history` is `true`, and facts are
fetched; but `general` takes the default tier row, so the summary and a
3-message recent window are fetched whenever a chat id is present, and
the summary/recent tiers are empty only when the chat id is null. -/
theorem classifier_failure_defaults (search : SearchOutcome) (summaryDb : String)
    (recentDb : Nat → String) :
    (∀ chat_id,
        (get_adaptive_context .failure search summaryDb recentDb chat_id).intent =
            "general" ∧
          (get_adaptive_context .failure search summaryDb recentDb chat_id).needs_history =
            true ∧
          (get_adaptive_context .failure search summaryDb recentDb chat_id).facts =
            retrieve_context search) ∧
    get_adaptive_context .failure search summaryDb recentDb none =
      ⟨retrieve_context search, "", "", "general", true⟩ ∧
    (∀ c, get_adaptive_context .failure search summaryDb recentDb (some c) =
      ⟨retrieve_context search, summaryDb, recentDb 3, "general", true⟩) := by
  refine ⟨fun chat_id => ?_, ?_, fun c => ?_⟩
  · cases chat_id <;> simp [get_adaptive_context, classify_query_intent]
  · simp [get_adaptive_context, classify_query_intent]
  · simp [get_adaptive_context, classify_query_intent]

/-- C4: a retrieved memory survives the threshold filter only when its
score is non-null and strictly above 0.5; an empty surviving set, an
embedding failure after its retries, a raised search, or a missing
client all yield the empty string (the function is total, so no
exception propagates); and a non-empty surviving set yields the
bulleted format. -/
theorem facts_threshold_and_degradation :
    (∀ (hits : List MemHit) (h : MemHit), h ∈ keptHits hits →
        ∃ s, h.score = some s ∧ (1 : ℚ) / 2 < s) ∧
    (∀ hits : List MemHit, keptHits hits = [] → retrieve_context (.ok hits) = "") ∧
    retrieve_context .embeddingFailed = "" ∧
    retrieve_context .searchRaised = "" ∧
    retrieve_context .clientUnavailable = "" ∧
    (∀ hits : List MemHit, keptHits hits ≠ [] →
        retrieve_context (.ok hits) =
          "Here is what you remember about this user:\n" ++
            String.intercalate "\n" ((keptHits hits).map (fun h => "- " ++ h.memory))) := by
  refine ⟨?_, ?_, rfl, rfl, rfl, ?_⟩
  · intro hits h hmem
    have hp : passesThreshold h = true := (List.mem_filter.mp hmem).2
    unfold passesThreshold at hp
    rcases hs : h.score with _ | s
    · rw [hs] at hp; exact absurd hp (by simp)
    · rw [hs] at hp
      simp only [Bool.and_eq_true, decide_eq_true_eq] at hp
      exact ⟨s, rfl, hp.2⟩
  · intro hits hk
    by_cases he : hits.isEmpty
    · simp [retrieve_context, he]
    · simp [retrieve_context, he, hk]
  · intro hits hk
    have he : hits.isEmpty = false := by
      rcases hits with _ | ⟨a, l⟩
      · exact absurd rfl hk
      · rfl
    simp [retrieve_context, he, hk]

/-- Witness for C4 at concrete inputs: a 0.7-score hit passes, a
0.3-score and a null-score hit are dropped, and a hit list with nothing
above threshold yields the empty string. -/
theorem facts_threshold_and_degradation_witness :
    (∃ s, (MemHit.mk (some ((7 : ℚ) / 10)) "likes tea").score = some s ∧
        (1 : ℚ) / 2 < s) ∧
    retrieve_context (.ok [⟨some ((3 : ℚ) / 10), "a"⟩, ⟨none, "b"⟩]) = "" := by
  have hmem : (⟨some ((7 : ℚ) / 10), "likes tea"⟩ : MemHit) ∈
      keptHits [⟨some ((7 : ℚ) / 10), "likes tea"⟩, ⟨some ((3 : ℚ) / 10), "a"⟩] := by
    simp [keptHits, List.filter, passesThreshold]
    norm_num
  have hkept : keptHits [(⟨some ((3 : ℚ) / 10), "a"⟩ : MemHit), ⟨none, "b"⟩] = [] := by
    simp [keptHits, List.filter, passesThreshold]
    norm_num
  exact ⟨facts_threshold_and_degradation.1 _ _ hmem,
    facts_threshold_and_degradation.2.1 _ hkept⟩

/-- C6 counterexample: when fact extraction fails, the stored record's
kind tag is the literal `transcript`, not `transcript_fallback` as the
claim (and the spec's data model) states. -/
theorem memory_kind_tag_cex :
    save_interaction true ExtractOutcome.failure true "hi" "hello" =
      SaveOutcome.stored "User said: hi\nAssistant responded: hello" "transcript" ∧
    "transcript" ≠ "transcript_fallback" := by
  decide

/-- C6 amended: on extraction failure or the `NONE` sentinel the stored
text is the raw transcript pair tagged `transcript` (the code's tag for
the fallback kind, not `transcript_fallback`); a successful extraction
is tagged `extracted_fact`; and an embedding failure aborts the write
with no record stored. -/
theorem memory_write_fallback (ui ar fact : String)
    (hfact : fact ≠ "") (hnone : pyUpper fact ≠ "NONE")
    (hpre : pyStartsWith fact "User said:" = false) :
    save_interaction true .failure true ui ar =
      .stored (transcriptFallback ui ar) "transcript" ∧
    save_interaction true (.content "NONE") true ui ar =
      .stored (transcriptFallback ui ar) "transcript" ∧
    (∀ e : ExtractOutcome, save_interaction true e false ui ar = .embeddingFailed) ∧
    save_interaction true (.content fact) true ui ar = .stored fact "extracted_fact" := by
  have hN : extract_facts (.content "NONE") = "" := by decide
  refine ⟨?_, ?_, fun e => ?_, ?_⟩
  · simp [save_interaction, extract_facts]
  · simp [save_interaction, hN]
  · simp [save_interaction]
  · have hx : extract_facts (.content fact) = fact := by
      simp [extract_facts, hfact, hnone]
    simp [save_interaction, hx, hfact, hpre]

/-- Witness for C6's amended theorem at concrete inputs. -/
theorem memory_write_fallback_witness :
    save_interaction true .failure true "hi" "yo" =
      .stored (transcriptFallback "hi" "yo") "transcript" ∧
    save_interaction true (.content "User likes tea") true "hi" "yo" =
      .stored "User likes tea" "extracted_fact" := by
  have h := memory_write_fallback "hi" "yo" "User likes tea"
    (by decide) (by decide) (by decide)
  exact ⟨h.1, h.2.2.2⟩

/-- C10: a cascading delete for a chat removes exactly one scroll page —
the deleted count is the number of matching points capped at 100, so it
never exceeds 100, and when more than 100 memories match, every matching
point beyond the first page survives the call (assuming distinct point
ids, as Qdrant guarantees). -/
theorem chat_memory_deletion_single_page (store : List MemPoint) (cid uid : String)
    (hnodup : (store.map (·.pid)).Nodup) :
    (delete_memories_for_chat true store cid uid).1 ≤ SCROLL_LIMIT ∧
    (delete_memories_for_chat true store cid uid).1 =
      min SCROLL_LIMIT (store.filter (matchesChat uid cid)).length ∧
    (∀ p ∈ (store.filter (matchesChat uid cid)).drop SCROLL_LIMIT,
        p ∈ (delete_memories_for_chat true store cid uid).2 ∧
          matchesChat uid cid p = true) := by
  have hcount : (delete_memories_for_chat true store cid uid).1 =
      min SCROLL_LIMIT (store.filter (matchesChat uid cid)).length := by
    unfold delete_memories_for_chat
    by_cases hres : ((store.filter (matchesChat uid cid)).take SCROLL_LIMIT).isEmpty
    · have : (store.filter (matchesChat uid cid)).take SCROLL_LIMIT = [] :=
        List.isEmpty_iff.mp hres
      have hlen : min SCROLL_LIMIT (store.filter (matchesChat uid cid)).length = 0 := by
        have := congrArg List.length this
        simpa [List.length_take] using this
      simp [hres, hlen]
    · simp [hres, List.length_take]
  refine ⟨by rw [hcount]; exact Nat.min_le_left _ _, hcount, ?_⟩
  intro p hp
  have hpfilter : p ∈ store.filter (matchesChat uid cid) := List.mem_of_mem_drop hp
  have hpstore : p ∈ store := (List.mem_filter.mp hpfilter).1
  have hpmatch : matchesChat uid cid p = true := (List.mem_filter.mp hpfilter).2
  have hstore_nodup : store.Nodup := hnodup.of_map (·.pid)
  have hfil_nodup : (store.filter (matchesChat uid cid)).Nodup :=
    hstore_nodup.filter (matchesChat uid cid)
  -- the drop segment is disjoint from the deleted page, so p's id survives
  have hid : p.pid ∉
      ((store.filter (matchesChat uid cid)).take SCROLL_LIMIT).map (·.pid) := by
    intro hmem
    obtain ⟨q, hq, hqid⟩ := List.mem_map.mp hmem
    have hqfilter : q ∈ store.filter (matchesChat uid cid) := List.mem_of_mem_take hq
    have hqstore : q ∈ store := (List.mem_filter.mp hqfilter).1
    have hqp : q = p := List.inj_on_of_nodup_map hnodup hqstore hpstore hqid
    subst hqp
    exact (List.disjoint_take_drop hfil_nodup le_rfl) hq hp
  have hres : ((store.filter (matchesChat uid cid)).take SCROLL_LIMIT).isEmpty = false := by
    rcases h : store.filter (matchesChat uid cid) with _ | ⟨a, l⟩
    · rw [h] at hp
      simp at hp
    · rfl
  have hval : (delete_memories_for_chat true store cid uid).2 =
      store.filter (fun q => decide (q.pid ∉
        ((store.filter (matchesChat uid cid)).take SCROLL_LIMIT).map (·.pid))) := by
    unfold delete_memories_for_chat
    simp [hres]
  refine ⟨?_, hpmatch⟩
  rw [hval, List.mem_filter]
  refine ⟨hpstore, ?_⟩
  simpa using hid

/-- Witness for C10 at a concrete input: one matching memory is deleted
and the count is returned. -/
theorem chat_memory_deletion_single_page_witness :
    (delete_memories_for_chat true
        [⟨"m1", "u1", some "c1"⟩, ⟨"m2", "u1", some "c2"⟩] "c1" "u1").1 =
      min SCROLL_LIMIT
        (([⟨"m1", "u1", some "c1"⟩, ⟨"m2", "u1", some "c2"⟩] : List MemPoint).filter
          (matchesChat "u1" "c1")).length :=
  (chat_memory_deletion_single_page
    [⟨"m1", "u1", some "c1"⟩, ⟨"m2", "u1", some "c2"⟩] "c1" "u1" (by decide)).2.1

lemma mem_filesAfter (ids : List String) (f : Finset FileName) (x : FileName) :
    x ∈ filesAfter ids f ↔
      x ∈ f ∨ ∃ i ∈ ids, x = FileName.db i ∨ x = FileName.vec i := by
  induction ids generalizing f with
  | nil => simp [filesAfter]
  | cons i rest ih =>
    have hstep : filesAfter (i :: rest) f =
        filesAfter rest (insert (FileName.vec i) (insert (FileName.db i) f)) := rfl
    rw [hstep, ih]
    simp only [Finset.mem_insert, List.mem_cons]
    constructor
    · rintro ((hv | hd | hf) | ⟨j, hj, hx⟩)
      · exact Or.inr ⟨i, Or.inl rfl, Or.inr hv⟩
      · exact Or.inr ⟨i, Or.inl rfl, Or.inl hd⟩
      · exact Or.inl hf
      · exact Or.inr ⟨j, Or.inr hj, hx⟩
    · rintro (hf | ⟨j, (rfl | hj), hx⟩)
      · exact Or.inl (Or.inr (Or.inr hf))
      · rcases hx with hd | hv
        · exact Or.inl (Or.inr (Or.inl hd))
        · exact Or.inl (Or.inl hv)
      · exact Or.inr ⟨j, hj, hx⟩

lemma create_backup_of_lt (cap : Nat) (i : String) (s : BackupSys)
    (h : s.manifest.length < cap) :
    create_backup cap i true s =
      (some (mkEntry i),
       ⟨insert (FileName.vec i) (insert (FileName.db i) s.files),
        mkEntry i :: s.manifest⟩) := by
  simp only [create_backup, if_true, mkEntry]
  rw [if_neg (by simp only [List.length_cons]; omega)]

lemma createMany_no_evict (cap : Nat) :
    ∀ (ids : List String) (s : BackupSys), s.manifest.length + ids.length ≤ cap →
      createMany cap ids s =
        ⟨filesAfter ids s.files, ids.reverse.map mkEntry ++ s.manifest⟩ := by
  intro ids
  induction ids with
  | nil => intro s _; rfl
  | cons i rest ih =>
    intro s h
    have hlt : s.manifest.length < cap := by
      simp only [List.length_cons] at h; omega
    have hstep : createMany cap (i :: rest) s =
        createMany cap rest (create_backup cap i true s).2 := rfl
    rw [hstep, create_backup_of_lt cap i s hlt]
    rw [ih _ (by simp only [List.length_cons] at h ⊢; omega)]
    simp [filesAfter, List.map_append]

lemma evictLoop_cons_none (e : BackupEntry) (rest : List BackupEntry)
    (files : Finset FileName) (h : e.vectors_file = none) :
    evictLoop (e :: rest) files = (files, false) := by
  rw [evictLoop, h]

lemma evictLoop_cons_some (e : BackupEntry) (rest : List BackupEntry)
    (files : Finset FileName) (v : FileName) (h : e.vectors_file = some v) :
    evictLoop (e :: rest) files = evictLoop rest ((files.erase e.db_file).erase v) := by
  rw [evictLoop, h]

lemma evictLoop_fails :
    ∀ (l : List BackupEntry) (files : Finset FileName),
      (∃ e ∈ l, e.vectors_file = none) → (evictLoop l files).2 = false := by
  intro l
  induction l with
  | nil => intro files hbad; simp at hbad
  | cons e rest ih =>
    intro files hbad
    cases hve : e.vectors_file with
    | none => rw [evictLoop_cons_none e rest files hve]
    | some v =>
      rw [evictLoop_cons_some e rest files v hve]
      rcases hbad with ⟨e', he', hv⟩
      rcases List.mem_cons.mp he' with rfl | hmem
      · rw [hve] at hv; cases hv
      · exact ih _ ⟨e', hmem, hv⟩

lemma evictLoop_preserves (x : FileName) :
    ∀ (l : List BackupEntry) (files : Finset FileName), x ∈ files →
      (∀ e ∈ l, x ≠ e.db_file ∧ ∀ v, e.vectors_file = some v → x ≠ v) →
      x ∈ (evictLoop l files).1 := by
  intro l
  induction l with
  | nil => intro files hx _; exact hx
  | cons e rest ih =>
    intro files hx hsafe
    cases hve : e.vectors_file with
    | none =>
      rw [evictLoop_cons_none e rest files hve]
      exact hx
    | some v =>
      rw [evictLoop_cons_some e rest files v hve]
      refine ih _ ?_ (fun e' he' => hsafe e' (List.mem_cons_of_mem e he'))
      exact Finset.mem_erase.mpr
        ⟨(hsafe e (List.mem_cons_self e rest)).2 v hve,
         Finset.mem_erase.mpr ⟨(hsafe e (List.mem_cons_self e rest)).1, hx⟩⟩

/-- C9: if an entry beyond the retention cap has a null `vectors_file`
(the shape recorded whenever that backup's vector export had failed),
`create_backup` raises while joining the backups dir with the null
reference, the outer handler catches it and returns failure, the
updated manifest is never saved — yet the new snapshot files have
already been written to the backups directory. -/
theorem stale_null_vectors_aborts_backup (cap : Nat) (newId : String) (exportOk : Bool)
    (s : BackupSys) (hcap : 1 ≤ cap)
    (hwf : ∀ e ∈ s.manifest, e.db_file = FileName.db e.id ∧
        ∀ v, e.vectors_file = some v → v = FileName.vec e.id)
    (hfresh : ∀ e ∈ s.manifest, e.id ≠ newId)
    (hbad : ∃ e ∈ s.manifest.drop (cap - 1), e.vectors_file = none) :
    (create_backup cap newId exportOk s).1 = none ∧
    (create_backup cap newId exportOk s).2.manifest = s.manifest ∧
    FileName.db newId ∈ (create_backup cap newId exportOk s).2.files ∧
    (exportOk = true → FileName.vec newId ∈ (create_backup cap newId exportOk s).2.files) := by
  obtain ⟨n, rfl⟩ : ∃ n, cap = n + 1 := ⟨cap - 1, by omega⟩
  have hbad' : ∃ e ∈ s.manifest.drop n, e.vectors_file = none := by
    simpa using hbad
  have hlen : n + 1 < s.manifest.length + 1 := by
    by_contra hcon
    have : s.manifest.drop n = [] := List.drop_eq_nil_of_le (by omega)
    rcases hbad' with ⟨e, he, _⟩
    rw [this] at he
    cases he
  have hsafe : ∀ x, (∀ e ∈ s.manifest, x ≠ e.db_file ∧
      ∀ v, e.vectors_file = some v → x ≠ v) →
      (∀ e ∈ s.manifest.drop n, x ≠ e.db_file ∧
        ∀ v, e.vectors_file = some v → x ≠ v) :=
    fun x h e he => h e (List.mem_of_mem_drop he)
  have hsafedb : ∀ e ∈ s.manifest, FileName.db newId ≠ e.db_file ∧
      ∀ v, e.vectors_file = some v → FileName.db newId ≠ v := by
    intro e he
    refine ⟨?_, fun v hv => ?_⟩
    · rw [(hwf e he).1]
      simp [Ne.symm (hfresh e he)]
    · rw [(hwf e he).2 v hv]
      simp
  have hsafevec : ∀ e ∈ s.manifest, FileName.vec newId ≠ e.db_file ∧
      ∀ v, e.vectors_file = some v → FileName.vec newId ≠ v := by
    intro e he
    refine ⟨?_, fun v hv => ?_⟩
    · rw [(hwf e he).1]
      simp
    · rw [(hwf e he).2 v hv]
      simp [Ne.symm (hfresh e he)]
  simp only [create_backup, List.length_cons, List.drop_succ_cons]
  rw [if_pos (by omega)]
  rw [if_neg (by rw [evictLoop_fails _ _ hbad']; simp)]
  refine ⟨rfl, rfl, ?_, fun hexp => ?_⟩
  · refine evictLoop_preserves _ _ _ ?_ (hsafe _ hsafedb)
    cases exportOk <;> simp
  · subst hexp
    refine evictLoop_preserves _ _ _ ?_ (hsafe _ hsafevec)
    simp

/-- Witness for C9 at a concrete input: a single stale entry with a null
vector reference under cap 1 makes the next backup fail, keep the old
manifest, and leave the new snapshot files behind. -/
theorem stale_null_vectors_aborts_backup_witness :
    (create_backup 1 "new" true ⟨∅, [⟨"old", FileName.db "old", none⟩]⟩).1 = none ∧
    (create_backup 1 "new" true ⟨∅, [⟨"old", FileName.db "old", none⟩]⟩).2.manifest =
      [⟨"old", FileName.db "old", none⟩] ∧
    FileName.db "new" ∈ (create_backup 1 "new" true
      ⟨∅, [⟨"old", FileName.db "old", none⟩]⟩).2.files ∧
    (true = true → FileName.vec "new" ∈ (create_backup 1 "new" true
      ⟨∅, [⟨"old", FileName.db "old", none⟩]⟩).2.files) :=
  stale_null_vectors_aborts_backup 1 "new" true ⟨∅, [⟨"old", FileName.db "old", none⟩]⟩
    (by decide) (by decide) (by decide) (by decide)

lemma create_backup_evict_last (cap : Nat) (i j : String) (s : BackupSys)
    (front : List BackupEntry)
    (hm : s.manifest = front ++ [mkEntry j])
    (hlen : front.length + 1 = cap) :
    create_backup cap i true s =
      (some (mkEntry i),
       ⟨((insert (FileName.vec i) (insert (FileName.db i) s.files)).erase
           (FileName.db j)).erase (FileName.vec j),
        mkEntry i :: front⟩) := by
  simp only [create_backup, if_true, mkEntry]
  rw [hm]
  have hcons :
      (⟨i, FileName.db i, some (FileName.vec i)⟩ : BackupEntry) ::
          (front ++ [mkEntry j]) =
        ((⟨i, FileName.db i, some (FileName.vec i)⟩ : BackupEntry) :: front) ++
          [mkEntry j] := rfl
  rw [hcons]
  have hflen : ((⟨i, FileName.db i, some (FileName.vec i)⟩ : BackupEntry) :: front).length
      = cap := by
    simp only [List.length_cons]
    omega
  rw [if_pos (by simp only [List.length_append, List.length_cons]; omega)]
  rw [List.drop_left' hflen, List.take_left' hflen]
  rw [evictLoop_cons_some _ _ _ _ rfl]
  rfl

/-- C8: starting from an empty backups directory, after creating
`cap + 1` backups (ids `firstId`, then `mid`, then `lastId`, all
distinct, every vector export succeeding) under retention cap `cap`,
exactly `cap` manifest entries remain, ordered newest first; every
remaining entry's snapshot files exist in the backups directory; and the
evicted oldest entry's two snapshot files have been removed. -/
theorem backup_retention_enforced (cap : Nat) (firstId lastId : String)
    (mid : List String) (final : BackupSys)
    (hcap : cap = mid.length + 1)
    (hnodup : (firstId :: (mid ++ [lastId])).Nodup)
    (hfinal : createMany cap (firstId :: (mid ++ [lastId])) emptySys = final) :
    final.manifest = mkEntry lastId :: mid.reverse.map mkEntry ∧
    final.manifest.length = cap ∧
    (∀ e ∈ final.manifest, e.db_file ∈ final.files ∧
        ∀ v, e.vectors_file = some v → v ∈ final.files) ∧
    FileName.db firstId ∉ final.files ∧
    FileName.vec firstId ∉ final.files := by
  subst hcap
  -- distinctness facts
  have hnc := List.nodup_cons.mp hnodup
  have hfirst_mid : firstId ∉ mid := fun h => hnc.1 (by simp [h])
  have hfirst_last : firstId ≠ lastId := fun h => hnc.1 (by simp [h])
  -- phase 1: the first cap backups fill the manifest without eviction
  have hphase1 : createMany (mid.length + 1) (firstId :: mid) emptySys =
      ⟨filesAfter (firstId :: mid) ∅,
       (firstId :: mid).reverse.map mkEntry ++ ([] : List BackupEntry)⟩ :=
    createMany_no_evict _ _ _ (by simp [emptySys])
  have happend : createMany (mid.length + 1) (firstId :: (mid ++ [lastId])) emptySys =
      (create_backup (mid.length + 1) lastId true
        (createMany (mid.length + 1) (firstId :: mid) emptySys)).2 := by
    have : firstId :: (mid ++ [lastId]) = (firstId :: mid) ++ [lastId] := rfl
    rw [this]
    simp [createMany, List.foldl_append]
  -- the final backup evicts exactly the oldest entry
  have hstep2 : create_backup (mid.length + 1) lastId true
      (createMany (mid.length + 1) (firstId :: mid) emptySys) =
      (some (mkEntry lastId),
       ⟨((insert (FileName.vec lastId) (insert (FileName.db lastId)
             (filesAfter (firstId :: mid) ∅))).erase
           (FileName.db firstId)).erase (FileName.vec firstId),
        mkEntry lastId :: mid.reverse.map mkEntry⟩) := by
    rw [hphase1]
    refine create_backup_evict_last _ _ _ _ (mid.reverse.map mkEntry) (by simp) (by simp)
  have hfinal_eq : final =
      ⟨((insert (FileName.vec lastId) (insert (FileName.db lastId)
            (filesAfter (firstId :: mid) ∅))).erase
          (FileName.db firstId)).erase (FileName.vec firstId),
       mkEntry lastId :: mid.reverse.map mkEntry⟩ := by
    rw [← hfinal, happend, hstep2]
  subst hfinal_eq
  refine ⟨rfl, by simp, ?_, ?_, ?_⟩
  · intro e he
    obtain ⟨k, hk, rfl⟩ : ∃ k, (k = lastId ∨ k ∈ mid) ∧ e = mkEntry k := by
      rcases List.mem_cons.mp he with h | h
      · exact ⟨lastId, Or.inl rfl, h⟩
      · obtain ⟨k, hk, hke⟩ := List.mem_map.mp h
        exact ⟨k, Or.inr (List.mem_reverse.mp hk), hke.symm⟩
    have hkfirst : k ≠ firstId := by
      rcases hk with rfl | hk
      · exact fun h => hfirst_last h.symm
      · exact fun h => hfirst_mid (h ▸ hk)
    have hmem2 : ∀ x, (x = FileName.db k ∨ x = FileName.vec k) →
        x ∈ insert (FileName.vec lastId) (insert (FileName.db lastId)
          (filesAfter (firstId :: mid) ∅)) := by
      intro x hx
      rcases hk with rfl | hk
      · rcases hx with rfl | rfl
        · exact Finset.mem_insert_of_mem (Finset.mem_insert_self _ _)
        · exact Finset.mem_insert_self _ _
      · refine Finset.mem_insert_of_mem (Finset.mem_insert_of_mem ?_)
        rw [mem_filesAfter]
        exact Or.inr ⟨k, by simp [hk], hx⟩
    refine ⟨?_, fun v hv => ?_⟩
    · refine Finset.mem_erase.mpr
        ⟨by simp [mkEntry], Finset.mem_erase.mpr ⟨by simp [mkEntry, hkfirst], ?_⟩⟩
      exact hmem2 _ (Or.inl rfl)
    · have hveq : FileName.vec k = v := by
        simpa [mkEntry] using hv
      subst hveq
      refine Finset.mem_erase.mpr
        ⟨by simp [hkfirst], Finset.mem_erase.mpr ⟨by simp, ?_⟩⟩
      exact hmem2 _ (Or.inr rfl)
  · intro hmem
    have h1 := (Finset.mem_erase.mp hmem).2
    exact (Finset.mem_erase.mp h1).1 rfl
  · exact fun hmem => (Finset.mem_erase.mp hmem).1 rfl

/-- Witness for C8 at a concrete input: cap 2, backups `a`, `b`, `c`. -/
theorem backup_retention_enforced_witness :
    (createMany 2 ["a", "b", "c"] emptySys).manifest =
      mkEntry "c" :: ["b"].reverse.map mkEntry ∧
    (createMany 2 ["a", "b", "c"] emptySys).manifest.length = 2 ∧
    (∀ e ∈ (createMany 2 ["a", "b", "c"] emptySys).manifest,
        e.db_file ∈ (createMany 2 ["a", "b", "c"] emptySys).files ∧
        ∀ v, e.vectors_file = some v → v ∈ (createMany 2 ["a", "b", "c"] emptySys).files) ∧
    FileName.db "a" ∉ (createMany 2 ["a", "b", "c"] emptySys).files ∧
    FileName.vec "a" ∉ (createMany 2 ["a", "b", "c"] emptySys).files :=
  backup_retention_enforced 2 "a" "c" ["b"] (createMany 2 ["a", "b", "c"] emptySys)
    (by decide) (by decide) rfl

/-- C2 counterexample: with one backup whose snapshot files both exist,
a restore whose vector reimport fails midway (the reimport returns
`False`, here leaving a half-written collection) still returns success,
after the transcript database has already been overwritten — the
operation is not all-or-nothing and the reimport's failure is ignored. -/
theorem restore_ignores_vector_failure_cex :
    restore_backup [⟨"b1", FileName.db "b1", some (FileName.vec "b1")⟩]
        (fun f => if f = FileName.db "b1" then some "db snapshot"
                  else if f = FileName.vec "b1" then some "vec snapshot" else none)
        (ImportOutcome.failed "half-written collection") "b1" ⟨"live db", "live vectors"⟩
      = (true, ⟨"db snapshot", "half-written collection"⟩) ∧
    (import_qdrant_vectors (ImportOutcome.failed "half-written collection")
        "live vectors").1 = false := by
  decide

/-- C2 amended: `restore_backup` returns failure exactly when the backup
id is absent from the manifest; whenever the entry is found it returns
success, having copied the transcript snapshot into the live database
when that snapshot file exists — regardless of whether the vector
reimport succeeded, failed, or was skipped, because the boolean returned
by `_import_qdrant_vectors` is discarded. -/
theorem restore_result_characterization (manifest : List BackupEntry)
    (fs : FileName → Option String) (io : ImportOutcome) (backup_id : String)
    (s : LiveStores) :
    (manifest.find? (fun b => b.id = backup_id) = none →
        restore_backup manifest fs io backup_id s = (false, s)) ∧
    (∀ b, manifest.find? (fun b => b.id = backup_id) = some b →
        (restore_backup manifest fs io backup_id s).1 = true) ∧
    (∀ b content, manifest.find? (fun b => b.id = backup_id) = some b →
        fs b.db_file = some content →
        (restore_backup manifest fs io backup_id s).2.db = content) := by
  refine ⟨fun hnone => ?_, fun b hb => ?_, fun b content hb hdb => ?_⟩
  · simp [restore_backup, hnone]
  · simp only [restore_backup, hb]
  · simp only [restore_backup, hb, hdb]
    split
    · split <;> rfl
    · rfl

/-- Witness for C2's amended theorem at a concrete input. -/
theorem restore_result_characterization_witness :
    (restore_backup [⟨"b1", FileName.db "b1", some (FileName.vec "b1")⟩]
        (fun f => if f = FileName.db "b1" then some "db snapshot" else none)
        (ImportOutcome.failed "broken") "b1" ⟨"live db", "live vectors"⟩).2.db =
      "db snapshot" :=
  (restore_result_characterization [⟨"b1", FileName.db "b1", some (FileName.vec "b1")⟩]
      (fun f => if f = FileName.db "b1" then some "db snapshot" else none)
      (ImportOutcome.failed "broken") "b1" ⟨"live db", "live vectors"⟩).2.2
    ⟨"b1", FileName.db "b1", some (FileName.vec "b1")⟩ "db snapshot"
    (by decide) (by decide)

end MeGPT
